import Mathlib

/-!
Verification of the TaskManager application (`src/streamlit_app.py`).

The persisted state is a single JSON document with fields `start_date`,
`tasks`, `streaks`, `goals`, `main_goal`.  Python `dict`s are modelled as
insertion-ordered association lists (`List (String × α)`); `dict`
assignment updates the first matching key in place and otherwise appends,
exactly as CPython dicts preserve insertion order.  Dates are modelled by
a `Date` structure; `datetime.strptime(k, "%Y-%m-%d")` is modelled after
CPython's `_strptime` machinery: the format compiles to the regex
`\d\d\d\d-(1[0-2]|0[1-9]|[1-9])-(3[01]|[12]\d|0[1-9]|[1-9])` matched against
the whole string — exactly four year digits, one- or two-digit month and day
fields (zero-padding optional) — after which `datetime.date` validates the
year (≥ 1) and the day against the month's length, leap years included.
Digits are modelled as ASCII digits.
-/

namespace TaskManager

/-- A calendar date, as produced by `datetime.date`. -/
structure Date where
  year : Nat
  month : Nat
  day : Nat
deriving DecidableEq, Repr

/-- Comparison of `datetime.date` objects: lexicographic on (year, month, day). -/
def Date.le (a b : Date) : Prop :=
  a.year < b.year ∨ (a.year = b.year ∧
    (a.month < b.month ∨ (a.month = b.month ∧ a.day ≤ b.day)))

instance : DecidableRel Date.le := fun a b => by
  unfold Date.le; infer_instance

/-- Leap-year test used by the Gregorian calendar (`datetime` semantics). -/
def isLeap (y : Nat) : Bool :=
  (y % 4 == 0 && y % 100 != 0) || y % 400 == 0

/-- Number of days in a month, as validated by `datetime`. -/
def daysInMonth (y m : Nat) : Nat :=
  if m = 2 then (if isLeap y then 29 else 28)
  else if m = 4 ∨ m = 6 ∨ m = 9 ∨ m = 11 then 30
  else 31

/-- The decimal digit character for `n < 10`. -/
def digitChar (n : Nat) : Char := Char.ofNat (48 + n)

/-- The numeric value of a decimal digit character. -/
def digitVal (c : Char) : Nat := c.toNat - 48

/-- A one- or two-digit numeric field, as the `%m`/`%d` regex alternatives
consume it: two digits whenever two are available (the regex lists the
two-digit alternatives first, and backtracking to one digit can never help,
since the character after the field must be the literal "-" or the end of the
string, never a digit); returns the value and the unconsumed remainder. -/
def parseNum2 : List Char → Option (Nat × List Char)
  | [] => none
  | [c1] => if c1.isDigit then some (digitVal c1, []) else none
  | c1 :: c2 :: rest =>
    if c1.isDigit then
      if c2.isDigit then some (digitVal c1 * 10 + digitVal c2, rest)
      else some (digitVal c1, c2 :: rest)
    else none

/-- `datetime.strptime(k, "%Y-%m-%d").date()`, per CPython `_strptime`:
exactly four year digits, a literal "-", a one- or two-digit month, a literal
"-", a one- or two-digit day, nothing after; then the value checks the regex
alternatives and `datetime.date` impose — month 1..12, day ≥ 1 and at most
the month's length (leap years included), year ≥ 1 (`MINYEAR`).  Any failure
raises `ValueError`, which the callers of this model treat as `none`. -/
def parseDateChars : List Char → Option Date
  | y1 :: y2 :: y3 :: y4 :: '-' :: rest =>
    if y1.isDigit ∧ y2.isDigit ∧ y3.isDigit ∧ y4.isDigit then
      match parseNum2 rest with
      | some (m, '-' :: rest2) =>
        match parseNum2 rest2 with
        | some (d, []) =>
          if 1 ≤ ((digitVal y1 * 10 + digitVal y2) * 10 + digitVal y3) * 10 +
                digitVal y4
              ∧ 1 ≤ m ∧ m ≤ 12 ∧ 1 ≤ d
              ∧ d ≤ daysInMonth
                  (((digitVal y1 * 10 + digitVal y2) * 10 + digitVal y3) * 10 +
                    digitVal y4) m then
            some ⟨((digitVal y1 * 10 + digitVal y2) * 10 + digitVal y3) * 10 +
                digitVal y4, m, d⟩
          else none
        | _ => none
      | _ => none
    else none
  | _ => none

/-- See `parseDateChars`; strings are just their character lists. -/
def parseDate (s : String) : Option Date :=
  parseDateChars s.data

/-- `date.isoformat()`: zero-padded `YYYY-MM-DD`. -/
def Date.toIso (d : Date) : String :=
  ⟨[digitChar (d.year / 1000 % 10), digitChar (d.year / 100 % 10),
    digitChar (d.year / 10 % 10), digitChar (d.year % 10), '-',
    digitChar (d.month / 10 % 10), digitChar (d.month % 10), '-',
    digitChar (d.day / 10 % 10), digitChar (d.day % 10)]⟩

/-- A streaks key in the canonical zero-padded form the program itself writes
(via `date.isoformat()`): if the key parses at all, reprinting the parsed
date reproduces the key.  Keys that do not parse are canonical vacuously. -/
def canonicalKey (k : String) : Prop :=
  ∀ d : Date, parseDate k = some d → d.toIso = k

/-- Python `dict` read `d.get(k)` / `d[k]`: first entry with the key. -/
def dictGet {α : Type} (d : List (String × α)) (k : String) : Option α :=
  match d with
  | [] => none
  | (k', v) :: rest => if k' = k then some v else dictGet rest k

/-- Python `dict` assignment `d[k] = v`: overwrite in place if the key is
present, otherwise append (insertion order is preserved). -/
def dictSet {α : Type} (d : List (String × α)) (k : String) (v : α) :
    List (String × α) :=
  match d with
  | [] => [(k, v)]
  | (k', v') :: rest =>
    if k' = k then (k, v) :: rest else (k', v') :: dictSet rest k v

/-- In-place mutation of the value stored under `k` (e.g. `d[k].pop(i)`);
entries under other keys, and the entry order, are untouched. -/
def dictMod {α : Type} (d : List (String × α)) (k : String) (f : α → α) :
    List (String × α) :=
  match d with
  | [] => []
  | (k', v) :: rest =>
    if k' = k then (k', f v) :: dictMod rest k f
    else (k', v) :: dictMod rest k f

/-- One task entry: `{"task": ..., "priority": ..., "done": ...}`. -/
structure Task where
  task : String
  priority : String
  done : Bool
deriving DecidableEq, Repr

/-- One goal entry: `{"goal": ..., "done": ...}`. -/
structure Goal where
  goal : String
  done : Bool
deriving DecidableEq, Repr

/-- The main goal record: `{"goal": ..., "progress": ...}`. -/
structure MainGoal where
  goal : String
  progress : Nat
deriving DecidableEq, Repr

/-- The persisted JSON document. -/
structure Document where
  start_date : String
  tasks : List (String × List Task)
  streaks : List (String × Bool)
  goals : List (String × List Goal)
  main_goal : MainGoal
deriving DecidableEq, Repr

/-- The default document built by `load_data` when the file is absent
(`streamlit_app.py` lines 19-30). -/
def default_document (today : String) : Document where
  start_date := today
  tasks := []
  streaks := []
  goals := [("weekly", []), ("monthly", []), ("3_months", []), ("6_months", [])]
  main_goal := { goal := "", progress := 0 }

/-- `load_data` (lines 14-30): if the file exists, return whatever `json.load`
does with its contents — the parse outcome, error included, since nothing
catches it — otherwise the default document.  The on-disk state is modelled as
`none` (file absent) or `some r` with `r` the outcome of `json.load` on the
contents. -/
def load_data (file : Option (Except String Document)) (today : String) :
    Except String Document :=
  match file with
  | some r => r
  | none => Except.ok (default_document today)

/-- The streak-pair ordering used to sort `parse_streaks` output
(`parsed.sort(key=lambda x: x[0])`). -/
def streakRel (a b : Date × Bool) : Prop := Date.le a.1 b.1

instance : DecidableRel streakRel := fun a b => by
  unfold streakRel; infer_instance

/-- `parse_streaks` (lines 36-47): keep the entries whose key parses as a date
(invalid keys are skipped by the `except: continue`), coerce the value to bool
(identity on the schema's booleans), and sort ascending by date with Python's
stable sort. -/
def parse_streaks (streaks_dict : List (String × Bool)) : List (Date × Bool) :=
  List.insertionSort streakRel
    (streaks_dict.filterMap fun kv => (parseDate kv.1).map fun d => (d, kv.2))

/-- The loop body of `compute_current_streak`: walk the reversed list, counting
until the first entry that is not done. -/
def streakLoop : List (Date × Bool) → Nat
  | [] => 0
  | (_, done) :: rest => if done then streakLoop rest + 1 else 0

/-- `compute_current_streak` (lines 49-59). -/
def compute_current_streak (parsed : List (Date × Bool)) : Nat :=
  if parsed.isEmpty then 0 else streakLoop parsed.reverse

/-- The recomputation of today's streak flag (lines 164-166):
`all(t.get("done", False) for t in data["tasks"].get(today, [])) if today in
data["tasks"] else False`, stored under `streaks[today]`.  Note that Python's
`all` of an empty list is `True`. -/
def recomputeDayCompletion (doc : Document) (today : String) : Document :=
  let completed_today :=
    match dictGet doc.tasks today with
    | some ts => ts.all (fun t => t.done)
    | none => false
  { doc with streaks := dictSet doc.streaks today completed_today }

/-- The task-delete button (lines 153-156): `data["tasks"][today].pop(i)`. -/
def deleteTask (doc : Document) (today : String) (i : Nat) : Document :=
  { doc with tasks := dictMod doc.tasks today (fun l => l.eraseIdx i) }

/-- The goal-delete button (lines 255-258): `data["goals"][seg].pop(i)`. -/
def deleteGoal (doc : Document) (seg : String) (i : Nat) : Document :=
  { doc with goals := dictMod doc.goals seg (fun l => l.eraseIdx i) }

/-- The scan inside the Reset Current Streak button (lines 212-216): first
`done` entry of the reversed (newest-first) parsed sequence. -/
def findMostRecentTrue (parsed : List (Date × Bool)) : Option Date :=
  (parsed.reverse.find? fun p => p.2).map fun p => p.1

/-- The Reset Current Streak button (lines 210-225): break the active streak by
setting the most recent `True` date to `False`; the returned flag is whether a
change was made (`st.warning` success path) as opposed to the
"no active streak" message. -/
def breakActiveStreak (doc : Document) : Document × Bool :=
  let parsed := parse_streaks doc.streaks
  match findMostRecentTrue parsed with
  | some d => ({ doc with streaks := dictSet doc.streaks d.toIso false }, true)
  | none => (doc, false)

/-- The month key `(year, month)` of a date, as `dt.to_period("M")` groups. -/
def monthKey (d : Date) : Nat × Nat := (d.year, d.month)

/-- Ascending order on month keys. -/
def monthLt (a b : Nat × Nat) : Prop :=
  a.1 < b.1 ∨ (a.1 = b.1 ∧ a.2 < b.2)

instance : DecidableRel monthLt := fun a b => by
  unfold monthLt; infer_instance

/-- Insert a month key into an ascending list of distinct month keys. -/
def insertMonth (m : Nat × Nat) : List (Nat × Nat) → List (Nat × Nat)
  | [] => [m]
  | x :: xs =>
    if m = x then x :: xs
    else if monthLt m x then m :: x :: xs
    else x :: insertMonth m xs

/-- The distinct month keys of a streak sequence, ascending (the groupby index
is sorted ascending by pandas). -/
def monthsOf : List (Date × Bool) → List (Nat × Nat)
  | [] => []
  | e :: es => insertMonth (monthKey e.1) (monthsOf es)

/-- The monthly aggregation behind the chart (lines 187-188):
`streak_df.groupby("month")["done"].sum()` after the date column has been
parsed — group the (date, done) entries by calendar month and sum the boolean
`done` column, i.e. count the `true` entries, the groups ordered by month
ascending. -/
def monthlyCompletedCounts (entries : List (Date × Bool)) :
    List ((Nat × Nat) × Nat) :=
  (monthsOf entries).map fun m =>
    (m, (entries.filter fun e => monthKey e.1 = m ∧ e.2).length)

/-- The chart pipeline applied to the raw `streaks` dict (lines 181-190):
`pd.to_datetime(..., errors="coerce")` plus `dropna` keeps exactly the keys
that parse as dates, then the monthly aggregation runs. -/
def monthly_streak (streaks_dict : List (String × Bool)) :
    List ((Nat × Nat) × Nat) :=
  monthlyCompletedCounts
    (streaks_dict.filterMap fun kv => (parseDate kv.1).map fun d => (d, kv.2))

/-- The key normalisation of the Add Goal button (line 235):
`goal_type.lower().replace(" ", "_")`.  Both `.lower()` and the single-character
`.replace` act character-wise, so their composition is one character map. -/
def segmentKeyOf (goal_type : String) : String :=
  ⟨goal_type.data.map fun c =>
    let lc := c.toLower
    if lc = ' ' then '_' else lc⟩

/-- The Add Goal button (lines 234-239): create the segment list if the key is
new, then append `{"goal": text, "done": False}`. -/
def addGoal (doc : Document) (goal_type : String) (text : String) : Document :=
  let key := segmentKeyOf goal_type
  let cur := (dictGet doc.goals key).getD []
  { doc with goals := dictSet doc.goals key (cur ++ [{ goal := text, done := false }]) }

/-- Round a rational `n / t` (with `t > 0`) to the nearest integer, ties to
even: the rounding performed by Python's float formatting. -/
def roundHalfEven (n t : Nat) : Nat :=
  if 2 * (n % t) < t then n / t
  else if t < 2 * (n % t) then n / t + 1
  else if (n / t) % 2 = 0 then n / t else n / t + 1

/-- The per-segment progress display (lines 245-248): nothing is computed for
an empty segment (`st.info("No goals added yet.")`, modelled as `none`);
otherwise `(done_count, total, pct)` with `pct` the percentage
`done_count / total * 100` rounded for the `:.0f` display. -/
def segmentProgress (goals : List Goal) : Option (Nat × Nat × Nat) :=
  if goals.isEmpty then none
  else
    let done_count := (goals.filter fun g => g.done).length
    let total := goals.length
    some (done_count, total, roundHalfEven (100 * done_count) total)

/-! ### Helper lemmas -/

theorem dictGet_dictSet_self {α : Type} (d : List (String × α)) (k : String)
    (v : α) : dictGet (dictSet d k v) k = some v := by
  induction d with
  | nil => simp [dictGet, dictSet]
  | cons kv rest ih =>
    obtain ⟨k', v'⟩ := kv
    by_cases h : k' = k <;> simp [dictGet, dictSet, h, ih]

theorem dictGet_dictSet_ne {α : Type} (d : List (String × α)) (k k' : String)
    (v : α) (h : k' ≠ k) : dictGet (dictSet d k v) k' = dictGet d k' := by
  induction d with
  | nil => simp [dictGet, dictSet, Ne.symm h]
  | cons kv rest ih =>
    obtain ⟨k0, v0⟩ := kv
    by_cases h0 : k0 = k
    · subst h0
      simp [dictGet, dictSet, Ne.symm h]
    · simp only [dictSet, if_neg h0, dictGet]
      by_cases h1 : k0 = k' <;> simp [h1, ih]

theorem dictGet_dictMod_self {α : Type} (d : List (String × α)) (k : String)
    (f : α → α) : dictGet (dictMod d k f) k = (dictGet d k).map f := by
  induction d with
  | nil => simp [dictGet, dictMod]
  | cons kv rest ih =>
    obtain ⟨k0, v0⟩ := kv
    by_cases h : k0 = k <;> simp [dictGet, dictMod, h, ih]

theorem dictGet_dictMod_ne {α : Type} (d : List (String × α)) (k k' : String)
    (f : α → α) (h : k' ≠ k) : dictGet (dictMod d k f) k' = dictGet d k' := by
  induction d with
  | nil => simp [dictGet, dictMod]
  | cons kv rest ih =>
    obtain ⟨k0, v0⟩ := kv
    by_cases h0 : k0 = k
    · subst h0
      simp [dictMod, dictGet, Ne.symm h, ih]
    · simp only [dictMod, if_neg h0, dictGet]
      by_cases h1 : k0 = k' <;> simp [h1, ih]

instance : IsTotal (Date × Bool) streakRel :=
  ⟨by intro a b; unfold streakRel Date.le; omega⟩

instance : IsTrans (Date × Bool) streakRel :=
  ⟨by intro a b c hab hbc; unfold streakRel Date.le at *; omega⟩

theorem streakLoop_eq_takeWhile (l : List (Date × Bool)) :
    streakLoop l = (l.takeWhile fun p => p.2).length := by
  induction l with
  | nil => rfl
  | cons p rest ih =>
    obtain ⟨d, done⟩ := p
    cases done <;> simp [streakLoop, List.takeWhile, ih]

theorem roundHalfEven_nearest (n t : Nat) (ht : 0 < t) :
    2 * ((roundHalfEven n t * t : Int) - n).natAbs ≤ t := by
  have hr : n % t < t := Nat.mod_lt n ht
  have hn : (n : Int) = (n / t : Nat) * t + (n % t : Nat) := by
    exact_mod_cast (Nat.div_add_mod' n t).symm
  have eA : ((n / t : Nat) : Int) * t - n = -(n % t : Nat) := by
    rw [hn]; ring
  have eB : ((n / t + 1 : Nat) : Int) * t - n = (t : Int) - (n % t : Nat) := by
    rw [hn]; push_cast; ring
  have eC : ((t : Int) - (n % t : Nat)) = ((t - n % t : Nat) : Int) := by omega
  unfold roundHalfEven
  split_ifs with h1 h2 h3
  · rw [eA]; simp; omega
  · rw [eB, eC]; simp; omega
  · rw [eA]; simp; omega
  · rw [eB, eC]; simp; omega

theorem Date.le_refl (d : Date) : Date.le d d := by
  unfold Date.le
  omega

/-- In a list that is descending (newest first), the first entry that
`find?` accepts bounds every accepted entry from above. -/
theorem findRev_is_max {L : List (Date × Bool)}
    (hrev : L.Pairwise fun a b => streakRel b a)
    {pr : Date × Bool} (h : L.find? (fun p => p.2) = some pr) :
    ∀ p ∈ L, p.2 = true → Date.le p.1 pr.1 := by
  induction L with
  | nil => intro p hp; cases hp
  | cons a t ih =>
    obtain ⟨ha_all, ht⟩ := List.pairwise_cons.mp hrev
    intro p hp hpt
    rcases List.mem_cons.mp hp with rfl | hp'
    · rw [List.find?_cons_of_pos _ hpt] at h
      injection h with h'
      subst h'
      exact Date.le_refl _
    · by_cases ha : a.2 = true
      · rw [List.find?_cons_of_pos _ ha] at h
        injection h with h'
        subst h'
        exact ha_all p hp'
      · rw [List.find?_cons_of_neg _ (by simpa using ha)] at h
        exact ih ht h p hp' hpt

theorem parse_streaks_perm (m : List (String × Bool)) :
    (parse_streaks m).Perm
      (m.filterMap fun kv => (parseDate kv.1).map fun d => (d, kv.2)) :=
  List.perm_insertionSort _ _

theorem parse_streaks_sorted (m : List (String × Bool)) :
    (parse_streaks m).Pairwise streakRel :=
  List.sorted_insertionSort _ _

theorem mem_parse_streaks {m : List (String × Bool)} {d : Date} {b : Bool} :
    (d, b) ∈ parse_streaks m ↔ ∃ k, (k, b) ∈ m ∧ parseDate k = some d := by
  rw [(parse_streaks_perm m).mem_iff, List.mem_filterMap]
  constructor
  · rintro ⟨⟨k, v⟩, hkv, hf⟩
    simp only [Option.map_eq_some'] at hf
    obtain ⟨d', hpd, hdd⟩ := hf
    injection hdd with hd1 hd2
    subst hd1
    subst hd2
    exact ⟨k, hkv, hpd⟩
  · rintro ⟨k, hk, hpd⟩
    exact ⟨(k, b), hk, by simp [hpd]⟩

theorem mem_insertMonth {m x : Nat × Nat} {l : List (Nat × Nat)} :
    x ∈ insertMonth m l ↔ x = m ∨ x ∈ l := by
  induction l with
  | nil => simp [insertMonth]
  | cons a t ih =>
    unfold insertMonth
    split_ifs with h1 h2
    · subst h1
      simp [List.mem_cons]
    · simp [List.mem_cons]
    · simp only [List.mem_cons, ih]
      tauto

theorem pairwise_insertMonth {m : Nat × Nat} {l : List (Nat × Nat)}
    (hl : l.Pairwise monthLt) : (insertMonth m l).Pairwise monthLt := by
  induction l with
  | nil => simp [insertMonth]
  | cons a t ih =>
    obtain ⟨ha, ht⟩ := List.pairwise_cons.mp hl
    unfold insertMonth
    split_ifs with h1 h2
    · exact hl
    · refine List.pairwise_cons.mpr ⟨?_, hl⟩
      intro b hb
      rcases List.mem_cons.mp hb with rfl | hb'
      · exact h2
      · have hab := ha b hb'
        unfold monthLt at *
        omega
    · refine List.pairwise_cons.mpr ⟨?_, ih ht⟩
      intro b hb
      rcases mem_insertMonth.mp hb with rfl | hb'
      · rw [Prod.ext_iff] at h1
        unfold monthLt at *
        omega
      · exact ha b hb'

theorem mem_monthsOf {es : List (Date × Bool)} {m : Nat × Nat} :
    m ∈ monthsOf es ↔ ∃ e ∈ es, monthKey e.1 = m := by
  induction es with
  | nil => simp [monthsOf]
  | cons e t ih =>
    simp only [monthsOf, mem_insertMonth, ih, List.mem_cons]
    constructor
    · rintro (rfl | ⟨x, hx, hxm⟩)
      · exact ⟨e, Or.inl rfl, rfl⟩
      · exact ⟨x, Or.inr hx, hxm⟩
    · rintro ⟨x, rfl | hx, hxm⟩
      · exact Or.inl hxm.symm
      · exact Or.inr ⟨x, hx, hxm⟩

theorem pairwise_monthsOf (es : List (Date × Bool)) :
    (monthsOf es).Pairwise monthLt := by
  induction es with
  | nil => simp [monthsOf]
  | cons e t ih => exact pairwise_insertMonth ih

/-! ### Claim theorems -/

/-- A document whose day `2024-01-05` holds exactly one (not-done) task. -/
def oneTaskDoc : Document where
  start_date := "2024-01-01"
  tasks := [("2024-01-05", [{ task := "t", priority := "High", done := false }])]
  streaks := [("2024-01-04", true)]
  goals := [("weekly", [])]
  main_goal := { goal := "", progress := 0 }

/-- C1: the claim says the recomputation sets `streaks[d]` to false whenever
day `d` has no tasks, in particular after deleting the last remaining task.
The code does the opposite: `pop` leaves the day's key mapped to `[]`, the
`today in data["tasks"]` guard therefore passes, and Python's `all` over the
empty list is `True`, so the recomputation stores `true`.  This theorem
evaluates the embedded code at that failing input. -/
theorem claim_C1_empty_day_recompute :
    dictGet (deleteTask oneTaskDoc "2024-01-05" 0).tasks "2024-01-05" =
      some []
    ∧ dictGet (recomputeDayCompletion (deleteTask oneTaskDoc "2024-01-05" 0)
        "2024-01-05").streaks "2024-01-05" = some true := by
  constructor <;> rfl

/-- C2 counterexample: a present file whose contents fail to parse does not
yield the default document — the `json.load` failure propagates to the caller,
since `load_data` only guards for the file's absence. -/
theorem claim_C2_counterexample :
    load_data (some (Except.error "Expecting value")) "2024-01-01" =
      Except.error "Expecting value"
    ∧ load_data (some (Except.error "Expecting value")) "2024-01-01" ≠
        Except.ok (default_document "2024-01-01") := by
  exact ⟨rfl, by simp [load_data]⟩

/-- C2 (amended): `load` returns the default document (empty tasks and
streaks, the four empty goal segments, empty main goal with progress 0, today
as `start_date`) exactly when the file is absent; when the file is present the
`json.load` outcome — a parse error included — passes through to the caller
unguarded. -/
theorem claim_C2_load_behavior :
    (∀ today : String, load_data none today = Except.ok (default_document today))
    ∧ (∀ (r : Except String Document) (today : String), load_data (some r) today = r)
    ∧ (∀ today : String, default_document today =
        { start_date := today, tasks := [], streaks := [],
          goals := [("weekly", []), ("monthly", []), ("3_months", []), ("6_months", [])],
          main_goal := { goal := "", progress := 0 } }) :=
  ⟨fun _ => rfl, fun _ _ => rfl, fun _ => rfl⟩

/-- C3: `compute_current_streak` returns the number of consecutive `true`
entries counted from the most recent entry backwards, stopping at the first
`false` entry or the start; the empty sequence gives 0, and the two concrete
ascending sequences give 0 and 2 respectively. -/
theorem claim_C3_current_streak :
    (∀ l : List (Date × Bool),
      compute_current_streak l = (l.reverse.takeWhile fun p => p.2).length)
    ∧ compute_current_streak [] = 0
    ∧ (∀ d1 d2 d3 : Date,
        compute_current_streak [(d1, true), (d2, true), (d3, false)] = 0
        ∧ compute_current_streak [(d1, false), (d2, true), (d3, true)] = 2) := by
  refine ⟨?_, rfl, fun d1 d2 d3 => ⟨rfl, rfl⟩⟩
  intro l
  cases l with
  | nil => rfl
  | cons a t =>
    show streakLoop (a :: t).reverse = _
    exact streakLoop_eq_takeWhile ((a :: t).reverse)

/-- C7: `segmentProgress` never divides by zero — for the empty goal list it
reports "no goals" (`none`) rather than computing a percentage — and for a
non-empty list it reports the done count, the total, and the percentage
`done/total*100` rounded to a nearest integer (distance from the exact value
at most 1/2). -/
theorem claim_C7_segment_progress :
    segmentProgress [] = none
    ∧ (∀ gs : List Goal, gs ≠ [] →
        ∃ pct, segmentProgress gs =
            some ((gs.filter fun g => g.done).length, gs.length, pct)
          ∧ 2 * ((pct * gs.length : Int) -
              100 * (gs.filter fun g => g.done).length).natAbs ≤ gs.length) := by
  refine ⟨rfl, ?_⟩
  intro gs hgs
  have ht : 0 < gs.length := List.length_pos.mpr hgs
  refine ⟨roundHalfEven (100 * (gs.filter fun g => g.done).length) gs.length, ?_, ?_⟩
  · unfold segmentProgress
    rw [if_neg (by simp [List.isEmpty_iff, hgs])]
  · have h := roundHalfEven_nearest (100 * (gs.filter fun g => g.done).length)
      gs.length ht
    push_cast at h ⊢
    exact h

/-- Witness for C7: a single completed goal gives progress (1, 1, 100%). -/
theorem claim_C7_witness :
    ∃ pct, segmentProgress [{ goal := "g", done := true }] = some (1, 1, pct)
      ∧ 2 * ((pct * 1 : Int) - 100 * 1).natAbs ≤ 1 :=
  claim_C7_segment_progress.2 [{ goal := "g", done := true }] (by decide)

/-- C8: every goal segment key created by `addGoal` from one of the segment
choices offered by the UI is lower-case with spaces replaced by underscores
("3 Months" is stored under "3_months"), and `addGoal` appends
`⟨text, false⟩` to that segment's list — creating the list when the key is
new — while touching nothing else, on every document. -/
theorem claim_C8_goal_keys :
    (∀ gt : String, gt ∈ ["Weekly", "Monthly", "3 Months", "6 Months"] →
      ((segmentKeyOf gt).data.all fun c => !c.isUpper && c != ' ') = true)
    ∧ segmentKeyOf "3 Months" = "3_months"
    ∧ (∀ (doc : Document) (gt text : String),
        dictGet (addGoal doc gt text).goals (segmentKeyOf gt) =
          some ((dictGet doc.goals (segmentKeyOf gt)).getD [] ++
            [{ goal := text, done := false }])
        ∧ (∀ k, k ≠ segmentKeyOf gt →
            dictGet (addGoal doc gt text).goals k = dictGet doc.goals k)
        ∧ (addGoal doc gt text).tasks = doc.tasks
        ∧ (addGoal doc gt text).streaks = doc.streaks
        ∧ (addGoal doc gt text).start_date = doc.start_date
        ∧ (addGoal doc gt text).main_goal = doc.main_goal) := by
  refine ⟨?_, rfl, ?_⟩
  · intro gt hgt
    fin_cases hgt <;> decide
  · intro doc gt text
    refine ⟨?_, ?_, rfl, rfl, rfl, rfl⟩
    · exact dictGet_dictSet_self doc.goals (segmentKeyOf gt) _
    · intro k hk
      exact dictGet_dictSet_ne doc.goals (segmentKeyOf gt) k _ hk

/-- Witness for C8: the key built from the UI choice "3 Months" has no
upper-case character and no space. -/
theorem claim_C8_witness :
    ((segmentKeyOf "3 Months").data.all fun c => !c.isUpper && c != ' ') = true :=
  claim_C8_goal_keys.1 "3 Months" (by decide)

/-- C9: deleting by in-bounds index removes exactly the element at that
position (the prefix before it and the suffix after it survive in order), and
leaves every other day's task list / goal segment and all other document
fields unchanged — for tasks and for goals alike. -/
theorem claim_C9_delete_frame :
    (∀ (doc : Document) (day : String) (i : Nat) (l : List Task),
      dictGet doc.tasks day = some l → i < l.length →
      dictGet (deleteTask doc day i).tasks day = some (l.take i ++ l.drop (i + 1))
      ∧ (∀ k, k ≠ day → dictGet (deleteTask doc day i).tasks k = dictGet doc.tasks k)
      ∧ (deleteTask doc day i).streaks = doc.streaks
      ∧ (deleteTask doc day i).goals = doc.goals
      ∧ (deleteTask doc day i).start_date = doc.start_date
      ∧ (deleteTask doc day i).main_goal = doc.main_goal)
    ∧ (∀ (doc : Document) (seg : String) (i : Nat) (l : List Goal),
      dictGet doc.goals seg = some l → i < l.length →
      dictGet (deleteGoal doc seg i).goals seg = some (l.take i ++ l.drop (i + 1))
      ∧ (∀ k, k ≠ seg → dictGet (deleteGoal doc seg i).goals k = dictGet doc.goals k)
      ∧ (deleteGoal doc seg i).tasks = doc.tasks
      ∧ (deleteGoal doc seg i).streaks = doc.streaks
      ∧ (deleteGoal doc seg i).start_date = doc.start_date
      ∧ (deleteGoal doc seg i).main_goal = doc.main_goal) := by
  constructor <;>
    · intro doc key i l hl _
      refine ⟨?_, ?_, rfl, rfl, rfl, rfl⟩
      · rw [show (l.take i ++ l.drop (i + 1)) = l.eraseIdx i from
          (List.eraseIdx_eq_take_drop_succ l i).symm]
        simp [deleteTask, deleteGoal, dictGet_dictMod_self, hl]
      · intro k hk
        simp [deleteTask, deleteGoal, dictGet_dictMod_ne _ _ _ _ hk]

/-- Witness for C9: deleting index 0 of a two-task day keeps the second task. -/
theorem claim_C9_witness :
    dictGet (deleteTask
        { start_date := "2024-01-01",
          tasks := [("2024-03-05",
            [{ task := "a", priority := "High", done := false },
             { task := "b", priority := "Low", done := true }])],
          streaks := [], goals := [], main_goal := { goal := "", progress := 0 } }
        "2024-03-05" 0).tasks "2024-03-05" =
      some [{ task := "b", priority := "Low", done := true }] :=
  (claim_C9_delete_frame.1
    { start_date := "2024-01-01",
      tasks := [("2024-03-05",
        [{ task := "a", priority := "High", done := false },
         { task := "b", priority := "Low", done := true }])],
      streaks := [], goals := [], main_goal := { goal := "", progress := 0 } }
    "2024-03-05" 0 _ rfl (by decide)).1

/-- C10: `deleteTask` never removes the day's key — deleting the only task of
a day leaves `tasks[d]` present and equal to `[]` — and the state is
observable: the day-completion recomputation stores `true` for a
present-but-empty day, while for an absent day it stores `false`. -/
theorem claim_C10_delete_keeps_key :
    ∀ (doc : Document) (d : String) (t : Task),
      dictGet doc.tasks d = some [t] →
      dictGet (deleteTask doc d 0).tasks d = some []
      ∧ dictGet (recomputeDayCompletion (deleteTask doc d 0) d).streaks d =
          some true
      ∧ (∀ doc2 : Document, dictGet doc2.tasks d = none →
          dictGet (recomputeDayCompletion doc2 d).streaks d = some false) := by
  intro doc d t h
  have h1 : dictGet (deleteTask doc d 0).tasks d = some [] := by
    simp [deleteTask, dictGet_dictMod_self, h]
  refine ⟨h1, ?_, ?_⟩
  · simp [recomputeDayCompletion, h1, dictGet_dictSet_self]
  · intro doc2 h2
    simp [recomputeDayCompletion, h2, dictGet_dictSet_self]

/-- Witness for C10 at a one-task day. -/
theorem claim_C10_witness :
    dictGet (deleteTask oneTaskDoc "2024-01-05" 0).tasks "2024-01-05" =
      some ([] : List Task) :=
  (claim_C10_delete_keeps_key oneTaskDoc "2024-01-05"
    { task := "t", priority := "High", done := false } rfl).1

/-- C5: `parse_streaks` returns a sequence sorted ascending by date holding
exactly (as a permutation of their insertion order) the entries whose keys
parse as dates, an entry `(d, b)` being present iff some key parsing to `d`
maps to `b`; an invalid key such as "not-a-date" is dropped silently, and the
remaining pipeline — `compute_current_streak`, the monthly aggregation —
still runs on the result. -/
theorem claim_C5_parse_streaks :
    (∀ m : List (String × Bool),
      (parse_streaks m).Pairwise streakRel
      ∧ (parse_streaks m).Perm
          (m.filterMap fun kv => (parseDate kv.1).map fun d => (d, kv.2))
      ∧ (∀ (d : Date) (b : Bool),
          (d, b) ∈ parse_streaks m ↔ ∃ k, (k, b) ∈ m ∧ parseDate k = some d))
    ∧ parse_streaks [("not-a-date", true), ("2024-01-01", true)] =
        [(⟨2024, 1, 1⟩, true)]
    ∧ compute_current_streak
        (parse_streaks [("not-a-date", true), ("2024-01-01", true)]) = 1
    ∧ monthly_streak [("not-a-date", true), ("2024-01-01", true)] =
        [((2024, 1), 1)] :=
  ⟨fun m => ⟨parse_streaks_sorted m, parse_streaks_perm m,
    fun _ _ => mem_parse_streaks⟩, rfl, rfl, rfl⟩

/-- C6: the monthly aggregation groups streak entries by (year, month), a
month key appearing in the result iff some entry's date falls in it, each
month paired with the count of its `true` entries, the months in strictly
ascending order; the spec's scenario yields `[("2024-01", 3)]`. -/
theorem claim_C6_monthly :
    (∀ entries : List (Date × Bool),
      ((monthlyCompletedCounts entries).Pairwise fun a b => monthLt a.1 b.1)
      ∧ (∀ m : Nat × Nat,
          (∃ c, (m, c) ∈ monthlyCompletedCounts entries) ↔
            ∃ e ∈ entries, monthKey e.1 = m)
      ∧ (∀ (m : Nat × Nat) (c : Nat),
          (m, c) ∈ monthlyCompletedCounts entries →
          c = (entries.filter fun e => monthKey e.1 = m ∧ e.2).length))
    ∧ monthly_streak [("2024-01-01", true), ("2024-01-02", true),
        ("2024-01-03", false), ("2024-01-04", true)] = [((2024, 1), 3)] := by
  refine ⟨?_, rfl⟩
  intro entries
  refine ⟨?_, ?_, ?_⟩
  · unfold monthlyCompletedCounts
    rw [List.pairwise_map]
    simpa using pairwise_monthsOf entries
  · intro m
    constructor
    · rintro ⟨c, hc⟩
      obtain ⟨x, hx, hxe⟩ := List.mem_map.mp hc
      injection hxe with h1 h2
      subst h1
      exact mem_monthsOf.mp hx
    · intro hm
      exact ⟨_, List.mem_map.mpr ⟨m, mem_monthsOf.mpr hm, rfl⟩⟩
  · intro m c hc
    obtain ⟨x, hx, hxe⟩ := List.mem_map.mp hc
    injection hxe with h1 h2
    subst h1
    exact h2.symm

/-- Witness for C6: in the spec's January scenario the count reported for
month (2024, 1) is the number of `true` entries of that month. -/
theorem claim_C6_witness :
    3 = ([((⟨2024, 1, 1⟩ : Date), true), (⟨2024, 1, 2⟩, true),
          (⟨2024, 1, 3⟩, false), (⟨2024, 1, 4⟩, true)].filter
            fun e => monthKey e.1 = (2024, 1) ∧ e.2).length :=
  (claim_C6_monthly.1 [(⟨2024, 1, 1⟩, true), (⟨2024, 1, 2⟩, true),
      (⟨2024, 1, 3⟩, false), (⟨2024, 1, 4⟩, true)]).2.2 (2024, 1) 3 (by decide)

/-- A document whose single streak key is the non-padded form `strptime`
also accepts: the reset action then writes `False` under the canonical
isoformat key "2024-01-05" rather than under the stored key. -/
def nonCanonDoc : Document where
  start_date := "2024-01-01"
  tasks := []
  streaks := [("2024-1-5", true)]
  goals := []
  main_goal := { goal := "", progress := 0 }

/-- C4 counterexample: on `nonCanonDoc` the parsed sequence has a `true`
entry (date 2024-01-05, stored under the non-canonical key "2024-1-5") and
the action reports success, yet the most recent `true` date's stored entry
still reads `true`: the `False` went to a freshly appended canonical key
"2024-01-05".  So the action neither set that date's flag to false nor left
all other streak entries unchanged, refuting the claim as stated. -/
theorem claim_C4_counterexample :
    findMostRecentTrue (parse_streaks nonCanonDoc.streaks) =
      some ⟨2024, 1, 5⟩
    ∧ (breakActiveStreak nonCanonDoc).2 = true
    ∧ dictGet (breakActiveStreak nonCanonDoc).1.streaks "2024-1-5" = some true
    ∧ (breakActiveStreak nonCanonDoc).1.streaks =
        [("2024-1-5", true), ("2024-01-05", false)] :=
  ⟨rfl, rfl, rfl, rfl⟩

/-- C4 (amended): if no parsed streak entry is `true`, the Reset Current
Streak action changes nothing and reports "nothing to break"; when every
streak key is canonical (zero-padded isoformat, the only form the program
itself writes) and some parsed entry is `true`, it picks the most recent
`true` date — an entry of the parsed sequence bounding every `true` entry
from above — flips exactly that date's flag to `false` (that key held `true`
before; every other key reads unchanged), reports success, and leaves the
rest of the document untouched.  On a non-canonical key the write goes to
the canonical isoformat key instead (see `claim_C4_counterexample`). -/
theorem claim_C4_break_streak :
    ∀ doc : Document,
      ((∀ p ∈ parse_streaks doc.streaks, p.2 = false) →
        breakActiveStreak doc = (doc, false))
      ∧ ((∀ p ∈ doc.streaks, canonicalKey p.1) →
        (∃ p ∈ parse_streaks doc.streaks, p.2 = true) →
        ∃ dm : Date,
          findMostRecentTrue (parse_streaks doc.streaks) = some dm
          ∧ (dm, true) ∈ parse_streaks doc.streaks
          ∧ (∀ p ∈ parse_streaks doc.streaks, p.2 = true → Date.le p.1 dm)
          ∧ (dm.toIso, true) ∈ doc.streaks
          ∧ (breakActiveStreak doc).2 = true
          ∧ dictGet (breakActiveStreak doc).1.streaks dm.toIso = some false
          ∧ (∀ k, k ≠ dm.toIso →
              dictGet (breakActiveStreak doc).1.streaks k = dictGet doc.streaks k)
          ∧ (breakActiveStreak doc).1.tasks = doc.tasks
          ∧ (breakActiveStreak doc).1.goals = doc.goals
          ∧ (breakActiveStreak doc).1.start_date = doc.start_date
          ∧ (breakActiveStreak doc).1.main_goal = doc.main_goal) := by
  intro doc
  constructor
  · intro hall
    have hnone : findMostRecentTrue (parse_streaks doc.streaks) = none := by
      unfold findMostRecentTrue
      rw [List.find?_eq_none.mpr fun x hx => by
        simp [hall x (List.mem_reverse.mp hx)]]
      rfl
    simp [breakActiveStreak, hnone]
  · rintro hcanon ⟨p0, hp0, hp0t⟩
    have hne : (parse_streaks doc.streaks).reverse.find? (fun p => p.2) ≠ none := by
      intro hn
      have := List.find?_eq_none.mp hn p0 (List.mem_reverse.mpr hp0)
      simp [hp0t] at this
    obtain ⟨pr, hpr⟩ := Option.ne_none_iff_exists'.mp hne
    have hprt : pr.2 = true := List.find?_some hpr
    have hprm : pr ∈ parse_streaks doc.streaks :=
      List.mem_reverse.mp (List.mem_of_find?_eq_some hpr)
    have hprpair : (pr.1, true) ∈ parse_streaks doc.streaks := by
      rwa [show ((pr.1, true) : Date × Bool) = pr from Prod.ext rfl hprt.symm]
    have hfind : findMostRecentTrue (parse_streaks doc.streaks) = some pr.1 := by
      unfold findMostRecentTrue
      rw [hpr]
      rfl
    have hflip : (parse_streaks doc.streaks).reverse.Pairwise
        (fun a b => streakRel b a) := by
      rw [List.pairwise_reverse]
      exact parse_streaks_sorted doc.streaks
    have hmax : ∀ p ∈ parse_streaks doc.streaks, p.2 = true → Date.le p.1 pr.1 :=
      fun p hp hpt =>
        findRev_is_max hflip hpr p (List.mem_reverse.mpr hp) hpt
    obtain ⟨k0, hk0, hk0pd⟩ := mem_parse_streaks.mp hprpair
    have hiso : pr.1.toIso = k0 := hcanon (k0, true) hk0 pr.1 hk0pd
    have hbreak : breakActiveStreak doc =
        ({ doc with streaks := dictSet doc.streaks pr.1.toIso false }, true) := by
      simp [breakActiveStreak, hfind]
    refine ⟨pr.1, hfind, hprpair, hmax, ?_, ?_, ?_, ?_, ?_, ?_, ?_, ?_⟩
    · rw [hiso]
      exact hk0
    · rw [hbreak]
    · rw [hbreak]
      exact dictGet_dictSet_self doc.streaks pr.1.toIso false
    · intro k hk
      rw [hbreak]
      exact dictGet_dictSet_ne doc.streaks pr.1.toIso k false hk
    · rw [hbreak]
    · rw [hbreak]
    · rw [hbreak]
    · rw [hbreak]

/-- The spec's break-streak scenario document. -/
def breakDoc : Document where
  start_date := "2024-02-01"
  tasks := []
  streaks := [("2024-02-01", false), ("2024-02-02", true)]
  goals := []
  main_goal := { goal := "", progress := 0 }

/-- Witness for C4: on `breakDoc` — canonical keys throughout — the action
reports success and flips `"2024-02-02"` to `false`. -/
theorem claim_C4_witness :
    (breakActiveStreak breakDoc).2 = true
    ∧ dictGet (breakActiveStreak breakDoc).1.streaks "2024-02-02" = some false := by
  have hcanon : ∀ p ∈ breakDoc.streaks, canonicalKey p.1 := by
    intro p hp
    rcases List.mem_cons.mp hp with rfl | hp2
    · intro d hd
      obtain rfl :=
        Option.some.inj (show some (⟨2024, 2, 1⟩ : Date) = some d from hd)
      rfl
    · rcases List.mem_cons.mp hp2 with rfl | hp3
      · intro d hd
        obtain rfl :=
          Option.some.inj (show some (⟨2024, 2, 2⟩ : Date) = some d from hd)
        rfl
      · exact absurd hp3 (List.not_mem_nil p)
  obtain ⟨dm, h1, h2, h3, h4, h5, h6, h7, h8, h9, h10, h11⟩ :=
    (claim_C4_break_streak breakDoc).2 hcanon ⟨(⟨2024, 2, 2⟩, true), by decide, rfl⟩
  have hdm : dm = ⟨2024, 2, 2⟩ := by
    have he : findMostRecentTrue (parse_streaks breakDoc.streaks) =
        some ⟨2024, 2, 2⟩ := by decide
    rw [he] at h1
    injection h1 with h1e
    exact h1e.symm
  subst hdm
  have hisoe : (Date.mk 2024 2 2).toIso = "2024-02-02" := rfl
  rw [hisoe] at h6
  exact ⟨h5, h6⟩

end TaskManager
